import Mathlib

/-!
Verification of the visibility-driven asynchronous chunk meshing pipeline of
the azalea-graphics renderer.  The definitions below are shallow embeddings of
the Rust sources:

* `src/azalea-graphics/src/renderer/world_renderer/mesher/mod.rs`
  (job scheduler, worker pool, local-section builder, section mesher driver);
* `src/azalea-graphics/src/renderer/world_renderer/visibility/buffers.rs`
  (`VisibilitySnapshot` and its accessors);
* `src/azalea-graphics/src/renderer/chunk.rs`
  (`BorrowedChunks::build_local_section`, `get_block_local`);
* `src/azalea-graphics/shaders/src/visibility.rs` (`cull_chunks`);
* `src/azalea-graphics/shaders/src/hiz.rs` (`reduce`).

f32 depth values carry no arithmetic in the scheduler (only comparison with
0.0 and ordering), so they are modelled as rationals; Rust integer division
and remainder operators are mapped explicitly (`div_euclid`/`rem_euclid` to
`Int.ediv`/`Int.emod`, truncating `/` on `i32` to `Int.tdiv`).
-/

/-- `ChunkSectionPos`: integer section coordinates (azalea-core). -/
structure SPos where
  x : ℤ
  y : ℤ
  z : ℤ
deriving DecidableEq

/-- `VisibilitySnapshot` (visibility/buffers.rs): cubic grid of per-cell
depth scalars; `0` means not visible. -/
structure VisSnapshot where
  radius : ℤ
  height : ℤ
  data : List ℚ
  cx : ℤ
  cz : ℤ
  min_y : ℤ

/-- `VisibilitySnapshot::index`: bounds-checked flat index of cell
`(dx, dy, dz)` relative to the grid center. -/
def VisSnapshot.cellIndex (v : VisSnapshot) (dx dy dz : ℤ) : Option ℕ :=
  let side := v.radius * 2 + 1
  if dx < -v.radius ∨ dx > v.radius then none
  else if dz < -v.radius ∨ dz > v.radius then none
  else if dy < 0 ∨ dy ≥ v.height then none
  else some ((dy * side * side) + (dz + v.radius) * side + (dx + v.radius)).toNat

/-- `VisibilitySnapshot::get_depth` (out-of-range data access modelled as
`none`, matching the bounds-checked index). -/
def VisSnapshot.getDepth (v : VisSnapshot) (dx dy dz : ℤ) : Option ℚ :=
  (v.cellIndex dx dy dz).bind fun i => v.data.get? i

/-- `VisibilitySnapshot::section_depth`: note the `self.min_y / 16`
(truncating i32 division) in the reverse mapping. -/
def VisSnapshot.sectionDepth (v : VisSnapshot) (p : SPos) : Option ℚ :=
  v.getDepth (p.x - v.cx) (p.y - Int.tdiv v.min_y 16) (p.z - v.cz)

/-- `VisibilitySnapshot::is_visible`. -/
def VisSnapshot.isVisible (v : VisSnapshot) (dx dy dz : ℤ) : Bool :=
  ((v.cellIndex dx dy dz).map fun i => decide (v.data.getD i 0 ≠ 0)).getD false

/-- `prio_for` (mesher/mod.rs): snapshot depth of the section, or `0.0`. -/
def prioFor (v : VisSnapshot) (p : SPos) : ℚ :=
  (v.sectionDepth p).getD 0

/-- `Job` (mesher/mod.rs). -/
structure Job where
  prio : ℚ
  spos : SPos
deriving DecidableEq

/-- The scheduler sort: `sort_unstable_by(|a, b| b.prio.partial_cmp(&a.prio))`
orders jobs by descending priority. -/
def sortJobsDesc (l : List Job) : List Job :=
  List.insertionSort (fun a b => b.prio ≤ a.prio) l

/-- `SharedQueue::clear_and_reprioritize` (mesher/mod.rs lines 134-171):
walk every snapshot cell, skip stored value `0`, reconstruct the section
position with `y = min_y + dy`, keep it if dirty, give it priority
`prio_for`, and sort descending. -/
def clearAndReprioritize (v : VisSnapshot) (dirty : Finset SPos) : List Job :=
  let sideN : ℕ := (v.radius * 2 + 1).toNat
  let pre := v.data.enum.filterMap fun ie =>
    if ie.2 = 0 then none
    else
      let y : ℕ := ie.1 / (sideN * sideN)
      let rem : ℕ := ie.1 % (sideN * sideN)
      let z : ℕ := rem / sideN
      let x : ℕ := rem % sideN
      let dx : ℤ := (x : ℤ) - v.radius
      let dz : ℤ := (z : ℤ) - v.radius
      let dy : ℤ := (y : ℤ)
      let spos : SPos := ⟨v.cx + dx, v.min_y + dy, v.cz + dz⟩
      if spos ∈ dirty then some ⟨prioFor v spos, spos⟩ else none
  sortJobsDesc pre

/-- `Mesher::submit_section`: insert into the dirty set. -/
def submitSection (dirty : Finset SPos) (p : SPos) : Finset SPos :=
  insert p dirty

/-- C1 failing snapshot: one visible column of two cells, captured with
`min_y = 16` (a snapshot origin not fixed by any caller in the sources). -/
def visC1 : VisSnapshot :=
  { radius := 0, height := 2, data := [mkRat 1 2, mkRat 7 10], cx := 0, cz := 0, min_y := 16 }

/-- C1 failing dirty set: the two sections the rebuild derives from the two
cells of `visC1`. -/
def dirtyC1 : Finset SPos :=
  {⟨0, 16, 0⟩, ⟨0, 17, 0⟩}

/-- C1: the claim that every queued job's priority equals the snapshot's
stored depth at its cell fails: `clear_and_reprioritize` reconstructs the
section y as `min_y + dy`, but `prio_for`/`section_depth` maps back with
`min_y / 16`, so for `min_y = 16` both visible dirty cells (stored depths
`1/2` and `7/10`) are queued with priority `0`. -/
theorem clearAndReprioritize_priority_mismatch :
    (clearAndReprioritize visC1 dirtyC1).map Job.prio = [0, 0]
    ∧ (clearAndReprioritize visC1 dirtyC1).length = 2
    ∧ visC1.data.get? 0 = some (mkRat 1 2)
    ∧ visC1.sectionDepth ⟨0, 16, 0⟩ = none
    ∧ mkRat 1 2 ≠ 0 := by
  decide

/-- C2 snapshot: chunk column (0,0), `min_y = 0`, cells y=0,1,2 visible with
depths 0.1, 0.2, 0.3, cells y=3,4 not visible. -/
def visC2 : VisSnapshot :=
  { radius := 0, height := 5, data := [mkRat 1 10, mkRat 2 10, mkRat 3 10, 0, 0],
    cx := 0, cz := 0, min_y := 0 }

/-- C2 dirty set: sections y = 0..4 of chunk (0,0). -/
def dirtyC2 : Finset SPos :=
  {⟨0, 0, 0⟩, ⟨0, 1, 0⟩, ⟨0, 2, 0⟩, ⟨0, 3, 0⟩, ⟨0, 4, 0⟩}

/-- C2 (counterexample): the rebuilt job list for the end-to-end scenario is
`y=2, y=1, y=0` — it is not in the claimed order `y=0, y=1, y=2`. -/
theorem rebuild_scenario_not_ascending :
    (clearAndReprioritize visC2 dirtyC2).map Job.spos
      = [⟨0, 2, 0⟩, ⟨0, 1, 0⟩, ⟨0, 0, 0⟩]
    ∧ (clearAndReprioritize visC2 dirtyC2).map Job.spos
      ≠ [⟨0, 0, 0⟩, ⟨0, 1, 0⟩, ⟨0, 2, 0⟩] := by
  decide

/-- C2 (amended): the scenario yields exactly 3 jobs, sorted descending by
stored depth, i.e. in the order y=2, then y=1, then y=0. -/
theorem rebuild_scenario_descending :
    (clearAndReprioritize visC2 dirtyC2).length = 3
    ∧ (clearAndReprioritize visC2 dirtyC2).map Job.spos
      = [⟨0, 2, 0⟩, ⟨0, 1, 0⟩, ⟨0, 0, 0⟩]
    ∧ (clearAndReprioritize visC2 dirtyC2).map Job.prio
      = [mkRat 3 10, mkRat 2 10, mkRat 1 10] := by
  decide

/-- C9: `submit_section` is a `HashSet::insert`, so a second submission of
the same position is a no-op, and the job list rebuilt from the resulting
dirty set is unchanged as well. -/
theorem submitSection_idempotent :
    ∀ (d : Finset SPos) (p : SPos),
      submitSection (submitSection d p) p = submitSection d p
      ∧ ∀ v : VisSnapshot,
          clearAndReprioritize v (submitSection (submitSection d p) p)
            = clearAndReprioritize v (submitSection d p) := by
  intro d p
  refine ⟨Finset.insert_idem p d, fun v => ?_⟩
  rw [submitSection, submitSection, Finset.insert_idem]

/-- Events on the dirty set, serialized by the single `Mutex` that guards it
(mesher/mod.rs): a `submit_section` insertion, or a worker's claim of a
popped job, which is `HashSet::remove` and succeeds only if the position was
still present. -/
inductive SchedEvent where
  | submit (p : SPos)
  | claim (p : SPos)
deriving DecidableEq

/-- Run a serialized event trace from a dirty set, counting the successful
claims of position `p` (the worker meshes the section exactly when its
`remove` returned `true`). -/
def claimWins (p : SPos) : Finset SPos → List SchedEvent → ℕ
  | _, [] => 0
  | s, SchedEvent.submit q :: tr => claimWins p (insert q s) tr
  | s, SchedEvent.claim q :: tr =>
      (if q ∈ s ∧ q = p then 1 else 0) + claimWins p (s.erase q) tr

/-- Number of submissions of `p` in a trace. -/
def submitCount (p : SPos) : List SchedEvent → ℕ
  | [] => 0
  | SchedEvent.submit q :: tr => (if q = p then 1 else 0) + submitCount p tr
  | SchedEvent.claim _ :: tr => submitCount p tr

lemma claimWins_le_aux (p : SPos) :
    ∀ (tr : List SchedEvent) (s : Finset SPos),
      claimWins p s tr ≤ submitCount p tr + (if p ∈ s then 1 else 0) := by
  intro tr
  induction tr with
  | nil => intro s; exact Nat.zero_le _
  | cons e tr ih =>
    intro s
    cases e with
    | submit q =>
      have h := ih (insert q s)
      simp only [claimWins, submitCount]
      by_cases hqp : q = p
      · rw [if_pos (Finset.mem_insert.2 (Or.inl hqp.symm))] at h
        rw [if_pos hqp]
        by_cases hp : p ∈ s
        · rw [if_pos hp]; omega
        · rw [if_neg hp]; omega
      · rw [if_neg hqp]
        by_cases hp : p ∈ s
        · rw [if_pos (Finset.mem_insert_of_mem hp)] at h
          rw [if_pos hp]; omega
        · have hni : p ∉ insert q s := fun hc =>
            (Finset.mem_insert.1 hc).elim (fun h2 => hqp h2.symm) hp
          rw [if_neg hni] at h
          rw [if_neg hp]; omega
    | claim q =>
      have h := ih (s.erase q)
      simp only [claimWins, submitCount]
      by_cases hqp : q = p
      · have hne : p ∉ s.erase q := fun hc => (Finset.mem_erase.1 hc).1 hqp.symm
        rw [if_neg hne] at h
        by_cases hq : q ∈ s
        · have hps : p ∈ s := hqp ▸ hq
          rw [if_pos hps, if_pos (And.intro hq hqp)]
          omega
        · have hps : p ∉ s := fun hc => hq (hqp.symm ▸ hc)
          rw [if_neg hps, if_neg (fun hc : q ∈ s ∧ q = p => hq hc.1)]
          omega
      · have hiff : p ∈ s.erase q ↔ p ∈ s :=
          ⟨Finset.mem_of_mem_erase, fun hp => Finset.mem_erase.2 ⟨fun h2 => hqp h2.symm, hp⟩⟩
        rw [if_neg (fun hc : q ∈ s ∧ q = p => hqp hc.2)]
        by_cases hp : p ∈ s
        · rw [if_pos (hiff.2 hp)] at h
          rw [if_pos hp]; omega
        · rw [if_neg (fun hc => hp (hiff.1 hc))] at h
          rw [if_neg hp]; omega

/-- C3: starting from an empty dirty set, in any serialized trace of
submissions and worker claims, the number of successful claims of a
position never exceeds the number of its insertions — at most one meshing
attempt wins per dirty-insertion, duplicates are impossible. -/
theorem claimWins_le_submitCount :
    ∀ (tr : List SchedEvent) (p : SPos), claimWins p ∅ tr ≤ submitCount p tr := by
  intro tr p
  simpa using claimWins_le_aux p tr ∅

/-- Worker-pool supervisor state (mesher/mod.rs): the recorded worker count,
the set of live (spawned, never stopped) worker thread ids, and the shared
`should_stop` flag that `SharedQueue::pop` checks — a worker exits only when
that flag is set. -/
structure PoolState where
  workerCount : ℕ
  workers : Finset ℕ
  shouldStop : Bool
deriving DecidableEq

/-- `Mesher::set_worker_threads` (mesher/mod.rs lines 314-333): equal count
is a no-op; a larger count spawns workers `current..new`; a smaller count
only records the new number — no signal of any kind is sent to workers. -/
def setWorkerThreads (s : PoolState) (n : ℕ) : PoolState :=
  if n = s.workerCount then s
  else if n > s.workerCount then
    { s with workers := s.workers ∪ Finset.Ico s.workerCount n, workerCount := n }
  else
    { s with workerCount := n }

/-- The initial pool of `Mesher::new` with 4 workers. -/
def poolC4 : PoolState :=
  { workerCount := 4, workers := Finset.range 4, shouldStop := false }

/-- C4: growing works (4 → 6 spawns two more workers), but shrinking does
not: `set_worker_threads 2` on a 4-worker pool leaves all four workers live
and the stop flag clear — no worker can cooperatively exit — while the
recorded count claims 2. -/
theorem setWorkerThreads_no_shrink :
    (setWorkerThreads poolC4 6).workers = Finset.range 6
    ∧ (setWorkerThreads poolC4 2).workers = Finset.range 4
    ∧ (setWorkerThreads poolC4 2).workers.card = 4
    ∧ (setWorkerThreads poolC4 2).shouldStop = false
    ∧ (setWorkerThreads poolC4 2).workerCount = 2 := by
  decide

/-- `Mesher::average_mesh_time_ns` (mesher/mod.rs lines 241-255): guard on a
zero mesh count, otherwise divide total nanoseconds by the count. -/
def averageMeshTimeNs (totalMeshes totalNs : ℕ) : ℚ :=
  if totalMeshes = 0 then 0 else (totalNs : ℚ) / (totalMeshes : ℚ)

/-- `Mesher::average_mesh_time_ms`. -/
def averageMeshTimeMs (totalMeshes totalNs : ℕ) : ℚ :=
  averageMeshTimeNs totalMeshes totalNs / 1000000

/-- C10: with a zero completed-mesh counter both diagnostic accessors return
exactly 0, taking the guarded branch rather than the division. -/
theorem averageMeshTime_zero_count :
    ∀ totalNs : ℕ,
      averageMeshTimeNs 0 totalNs = 0 ∧ averageMeshTimeMs 0 totalNs = 0 := by
  intro t
  constructor
  · simp [averageMeshTimeNs]
  · simp [averageMeshTimeMs, averageMeshTimeNs]

/-- Block states (azalea `BlockState`, an id). -/
abbrev BlockId := ℕ

/-- One 16×16×16 chunk section of the external world store: total getters,
as in azalea's `get_block_state`/`get_biome`. -/
structure ChunkSectionData where
  blockAt : ℕ → ℕ → ℕ → BlockId
  biomeAt : ℕ → ℕ → ℕ → ℕ

/-- A loaded chunk column: its vertical list of sections. -/
structure ChunkData where
  sections : List ChunkSectionData

/-- The world's chunk storage: per-position optional chunks plus the world
`min_y` in blocks. -/
structure ChunkStorage where
  chunkAt : ℤ → ℤ → Option ChunkData
  min_y : ℤ

/-- `BorrowedChunks` (chunk.rs): the center chunk, the 8 optional horizontal
neighbors in source order N, S, E, W, NE, NW, SE, SW, and the section-unit
`min_y`. -/
structure BorrowedChunksM where
  center : ChunkData
  neighbors : Fin 8 → Option ChunkData
  min_y : ℤ

/-- Read a block out of one chunk at vertical section index `si` (a negative
index, cast to `usize` in Rust, is far out of range, so the lookup fails). -/
def sectionBlock (c : ChunkData) (si : ℤ) (sx sy sz : ℕ) : Option BlockId :=
  if 0 ≤ si then (c.sections.get? si.toNat).map fun s => s.blockAt sx sy sz
  else none

/-- The 9-way chunk dispatch of `BorrowedChunks::get_block_local`. -/
def ownerChunk (bc : BorrowedChunksM) (cxOff czOff : ℤ) : Option ChunkData :=
  if cxOff = 0 ∧ czOff = 0 then some bc.center
  else if cxOff = 0 ∧ czOff = -1 then bc.neighbors 0
  else if cxOff = 0 ∧ czOff = 1 then bc.neighbors 1
  else if cxOff = -1 ∧ czOff = 0 then bc.neighbors 3
  else if cxOff = 1 ∧ czOff = 0 then bc.neighbors 2
  else if cxOff = -1 ∧ czOff = -1 then bc.neighbors 5
  else if cxOff = 1 ∧ czOff = -1 then bc.neighbors 4
  else if cxOff = -1 ∧ czOff = 1 then bc.neighbors 7
  else if cxOff = 1 ∧ czOff = 1 then bc.neighbors 6
  else none

/-- `BorrowedChunks::get_block_local` (chunk.rs lines 99-133): decompose the
local coordinate with `div_euclid`/`rem_euclid`, pick the owning chunk, then
its vertical section. -/
def getBlockLocal (bc : BorrowedChunksM) (baseY lx ly lz : ℤ) : Option BlockId :=
  (ownerChunk bc (Int.ediv lx 16) (Int.ediv lz 16)).bind fun c =>
    sectionBlock c (baseY + Int.ediv ly 16)
      (Int.emod lx 16).toNat (Int.emod ly 16).toNat (Int.emod lz 16).toNat

/-- `LocalSection` (chunk.rs): the 18³ halo snapshot (indexed here by the
array index `local + 1`), the 4×4×4 center biomes, and the tag position. -/
structure LocalSectionData where
  blocks : ℕ → ℕ → ℕ → Option BlockId
  biomes : ℕ → ℕ → ℕ → ℕ
  spos : SPos

/-- The `LocalChunk` assembled by `build_local_section` (mesher/mod.rs lines
340-378): neighbors fetched in source order from the storage. -/
def bcOf (w : ChunkStorage) (spos : SPos) (center : ChunkData) : BorrowedChunksM :=
  { center := center
    neighbors := ![w.chunkAt spos.x (spos.z - 1), w.chunkAt spos.x (spos.z + 1),
                   w.chunkAt (spos.x + 1) spos.z, w.chunkAt (spos.x - 1) spos.z,
                   w.chunkAt (spos.x + 1) (spos.z - 1), w.chunkAt (spos.x - 1) (spos.z - 1),
                   w.chunkAt (spos.x + 1) (spos.z + 1), w.chunkAt (spos.x - 1) (spos.z + 1)]
    min_y := Int.tdiv w.min_y 16 }

/-- `build_local_section` composed with `BorrowedChunks::build_local_section`:
`None` when the center chunk is missing, otherwise the filled 18³ snapshot. -/
def buildLocalSection (w : ChunkStorage) (spos : SPos) : Option LocalSectionData :=
  match w.chunkAt spos.x spos.z with
  | none => none
  | some center =>
    let minY := Int.tdiv w.min_y 16
    some
      { blocks := fun ix iy iz =>
          getBlockLocal (bcOf w spos center) (spos.y - minY)
            ((ix : ℤ) - 1) ((iy : ℤ) - 1) ((iz : ℤ) - 1)
        biomes := fun x y z =>
          if 0 ≤ spos.y - minY then
            ((center.sections.get? (spos.y - minY).toNat).map fun s => s.biomeAt x y z).getD 0
          else 0
        spos := spos }

/-- The claim's voxel resolution rule: chunk offset `floor(local/16)` looked
up directly in the storage, in-chunk offset `local mod 16`, vertical section
by the same decomposition; absent when the owning chunk or section is
unloaded. -/
def claimVoxel (w : ChunkStorage) (spos : SPos) (lx ly lz : ℤ) : Option BlockId :=
  (w.chunkAt (spos.x + Int.fdiv lx 16) (spos.z + Int.fdiv lz 16)).bind fun c =>
    sectionBlock c (spos.y - Int.tdiv w.min_y 16 + Int.fdiv ly 16)
      (Int.emod lx 16).toNat (Int.emod ly 16).toNat (Int.emod lz 16).toNat

lemma fdiv_eq_ediv_halo (a : ℤ) (h1 : -1 ≤ a) (h2 : a < 17) :
    Int.fdiv a 16 = Int.ediv a 16 := by
  interval_cases a <;> decide

lemma ediv_halo_cases (a : ℤ) (h1 : -1 ≤ a) (h2 : a < 17) :
    Int.ediv a 16 = -1 ∨ Int.ediv a 16 = 0 ∨ Int.ediv a 16 = 1 := by
  interval_cases a <;> decide

lemma ownerChunk_eq_chunkAt (w : ChunkStorage) (spos : SPos) (c : ChunkData)
    (hc : w.chunkAt spos.x spos.z = some c) (ex ez : ℤ)
    (hx : ex = -1 ∨ ex = 0 ∨ ex = 1) (hz : ez = -1 ∨ ez = 0 ∨ ez = 1) :
    ownerChunk (bcOf w spos c) ex ez = w.chunkAt (spos.x + ex) (spos.z + ez) := by
  rcases hx with rfl | rfl | rfl <;> rcases hz with rfl | rfl | rfl <;>
    simp [ownerChunk, bcOf, hc, sub_eq_add_neg] <;> rfl

lemma getBlockLocal_eq_claimVoxel (w : ChunkStorage) (spos : SPos) (c : ChunkData)
    (hc : w.chunkAt spos.x spos.z = some c) (lx ly lz : ℤ)
    (hlx1 : -1 ≤ lx) (hlx2 : lx < 17) (hly1 : -1 ≤ ly) (hly2 : ly < 17)
    (hlz1 : -1 ≤ lz) (hlz2 : lz < 17) :
    getBlockLocal (bcOf w spos c) (spos.y - Int.tdiv w.min_y 16) lx ly lz
      = claimVoxel w spos lx ly lz := by
  unfold getBlockLocal claimVoxel
  rw [fdiv_eq_ediv_halo lx hlx1 hlx2, fdiv_eq_ediv_halo ly hly1 hly2,
    fdiv_eq_ediv_halo lz hlz1 hlz2,
    ownerChunk_eq_chunkAt w spos c hc _ _ (ediv_halo_cases lx hlx1 hlx2)
      (ediv_halo_cases lz hlz1 hlz2)]

/-- C5: `build_local_section` returns `none` exactly when the center chunk is
unloaded; each of the 18³ voxels of a returned snapshot is resolved by chunk
offset `floor(local/16)` and in-chunk offset `local mod 16` into one of the
9 chunks of the storage, and it is `none` whenever that owning chunk (or its
vertical section) is unloaded. -/
theorem buildLocalSection_resolves (w : ChunkStorage) (spos : SPos) :
    (buildLocalSection w spos = none ↔ w.chunkAt spos.x spos.z = none)
    ∧ (∀ ix iy iz : ℕ, ix < 18 → iy < 18 → iz < 18 →
        (buildLocalSection w spos).map (fun ls => ls.blocks ix iy iz)
          = (w.chunkAt spos.x spos.z).map (fun _ =>
              claimVoxel w spos ((ix : ℤ) - 1) ((iy : ℤ) - 1) ((iz : ℤ) - 1)))
    ∧ (∀ ix iy iz : ℕ, ix < 18 → iy < 18 → iz < 18 →
        w.chunkAt (spos.x + Int.fdiv ((ix : ℤ) - 1) 16)
            (spos.z + Int.fdiv ((iz : ℤ) - 1) 16) = none →
          (buildLocalSection w spos).map (fun ls => ls.blocks ix iy iz)
            = (w.chunkAt spos.x spos.z).map (fun _ => none)) := by
  have key : ∀ ix iy iz : ℕ, ix < 18 → iy < 18 → iz < 18 →
      (buildLocalSection w spos).map (fun ls => ls.blocks ix iy iz)
        = (w.chunkAt spos.x spos.z).map (fun _ =>
            claimVoxel w spos ((ix : ℤ) - 1) ((iy : ℤ) - 1) ((iz : ℤ) - 1)) := by
    intro ix iy iz hx hy hz
    cases h : w.chunkAt spos.x spos.z with
    | none => simp [buildLocalSection, h]
    | some c =>
      simp only [buildLocalSection, h, Option.map_some']
      exact congrArg some
        (getBlockLocal_eq_claimVoxel w spos c h _ _ _
          (by omega) (by omega) (by omega) (by omega) (by omega) (by omega))
  refine ⟨?_, key, ?_⟩
  · cases h : w.chunkAt spos.x spos.z <;> simp [buildLocalSection, h]
  · intro ix iy iz hx hy hz hnone
    rw [key ix iy iz hx hy hz]
    cases h : w.chunkAt spos.x spos.z with
    | none => simp
    | some c => simp [claimVoxel, hnone]

/-- C5 witness world: only chunk (0,0) loaded, with a single section whose
blocks are all id 7. -/
def worldW : ChunkStorage :=
  { chunkAt := fun x z =>
      if x = 0 ∧ z = 0 then some ⟨[⟨fun _ _ _ => 7, fun _ _ _ => 0⟩]⟩ else none
    min_y := 0 }

/-- C5 witness position: section (0,0,0). -/
def sposW : SPos := ⟨0, 0, 0⟩

/-- C5 witness: at section (0,0,0) of `worldW` the snapshot exists; the halo
voxel (0,1,1) (owned by the unloaded west neighbor) is absent, while the
interior voxel (1,1,1) (owned by the loaded center chunk) is block 7. -/
theorem buildLocalSection_resolves_witness :
    (0 : ℕ) < 18 ∧ (1 : ℕ) < 18
    ∧ ((buildLocalSection worldW sposW).map fun ls => ls.blocks 0 1 1) = some none
    ∧ ((buildLocalSection worldW sposW).map fun ls => ls.blocks 1 1 1) = some (some 7) := by
  have h := buildLocalSection_resolves worldW sposW
  refine ⟨by decide, by decide, ?_, ?_⟩
  · rw [h.2.1 0 1 1 (by decide) (by decide) (by decide)]
    rfl
  · rw [h.2.1 1 1 1 (by decide) (by decide) (by decide)]
    rfl

/-- A single-channel float image, as read/written by the Hi-Z compute
shaders (hiz.rs). -/
structure Img where
  w : ℕ
  h : ℕ
  px : ℕ → ℕ → ℚ

/-- `base.min(src_size - 1)`: the clamped source coordinate used by
`reduce`. -/
def clampPos (s : Img) (x y : ℕ) : ℕ × ℕ :=
  (min x (s.w - 1), min y (s.h - 1))

/-- The four source texels `p00, p10, p01, p11` read by `reduce` for a
destination texel `(x, y)`. -/
def srcPositions (s : Img) (x y : ℕ) : List (ℕ × ℕ) :=
  [clampPos s (2 * x) (2 * y), clampPos s (2 * x + 1) (2 * y),
   clampPos s (2 * x) (2 * y + 1), clampPos s (2 * x + 1) (2 * y + 1)]

/-- `reduce` (hiz.rs lines 25-52): `d0.min(d1).min(d2.min(d3))`. -/
def reduceAt (s : Img) (x y : ℕ) : ℚ :=
  min (min (s.px (clampPos s (2 * x) (2 * y)).1 (clampPos s (2 * x) (2 * y)).2)
        (s.px (clampPos s (2 * x + 1) (2 * y)).1 (clampPos s (2 * x + 1) (2 * y)).2))
    (min (s.px (clampPos s (2 * x) (2 * y + 1)).1 (clampPos s (2 * x) (2 * y + 1)).2)
      (s.px (clampPos s (2 * x + 1) (2 * y + 1)).1 (clampPos s (2 * x + 1) (2 * y + 1)).2))

/-- One downsample step: the next mip has the halved (min 1) Vulkan mip
extent and each texel is the min of its up-to-4 sources. -/
def reduceImg (s : Img) : Img :=
  { w := max 1 (s.w / 2), h := max 1 (s.h / 2), px := reduceAt s }

/-- The Hi-Z pyramid: level 0 is the copied depth buffer, each further level
one `reduce` dispatch (hiz.rs host loop `for level in 1..mip_levels`). -/
def mipImg (s : Img) : ℕ → Img
  | 0 => s
  | k + 1 => reduceImg (mipImg s k)

/-- `DerivedPos img j o i q`: texel `o` of mip level `j` transitively reads
texel `q` of mip level `i` through the `reduce` chain. -/
inductive DerivedPos (img : Img) : ℕ → ℕ × ℕ → ℕ → ℕ × ℕ → Prop where
  | refl (k : ℕ) (p : ℕ × ℕ) : DerivedPos img k p k p
  | step (j : ℕ) (o u : ℕ × ℕ) (i : ℕ) (q : ℕ × ℕ) :
      u ∈ srcPositions (mipImg img j) o.1 o.2 →
      DerivedPos img j u i q →
      DerivedPos img (j + 1) o i q

lemma min4_attained (a b c d : ℚ) :
    min (min a b) (min c d) = a ∨ min (min a b) (min c d) = b
    ∨ min (min a b) (min c d) = c ∨ min (min a b) (min c d) = d := by
  rcases min_choice (min a b) (min c d) with h | h
  · rcases min_choice a b with h2 | h2
    · exact Or.inl (h.trans h2)
    · exact Or.inr (Or.inl (h.trans h2))
  · rcases min_choice c d with h2 | h2
    · exact Or.inr (Or.inr (Or.inl (h.trans h2)))
    · exact Or.inr (Or.inr (Or.inr (h.trans h2)))

lemma reduceImg_le_src (s : Img) (x y : ℕ) :
    ∀ p ∈ srcPositions s x y, (reduceImg s).px x y ≤ s.px p.1 p.2 := by
  intro p hp
  simp only [srcPositions, List.mem_cons, List.not_mem_nil, or_false] at hp
  show reduceAt s x y ≤ s.px p.1 p.2
  rcases hp with rfl | rfl | rfl | rfl
  · exact min_le_of_left_le (min_le_left _ _)
  · exact min_le_of_left_le (min_le_right _ _)
  · exact min_le_of_right_le (min_le_left _ _)
  · exact min_le_of_right_le (min_le_right _ _)

lemma reduceImg_attained (s : Img) (x y : ℕ) :
    ∃ p ∈ srcPositions s x y, (reduceImg s).px x y = s.px p.1 p.2 := by
  rcases min4_attained
      (s.px (clampPos s (2 * x) (2 * y)).1 (clampPos s (2 * x) (2 * y)).2)
      (s.px (clampPos s (2 * x + 1) (2 * y)).1 (clampPos s (2 * x + 1) (2 * y)).2)
      (s.px (clampPos s (2 * x) (2 * y + 1)).1 (clampPos s (2 * x) (2 * y + 1)).2)
      (s.px (clampPos s (2 * x + 1) (2 * y + 1)).1 (clampPos s (2 * x + 1) (2 * y + 1)).2)
    with h | h | h | h
  · exact ⟨clampPos s (2 * x) (2 * y), by simp [srcPositions], h⟩
  · exact ⟨clampPos s (2 * x + 1) (2 * y), by simp [srcPositions], h⟩
  · exact ⟨clampPos s (2 * x) (2 * y + 1), by simp [srcPositions], h⟩
  · exact ⟨clampPos s (2 * x + 1) (2 * y + 1), by simp [srcPositions], h⟩

lemma derivedPos_le (img : Img) (j : ℕ) (o : ℕ × ℕ) (i : ℕ) (q : ℕ × ℕ)
    (h : DerivedPos img j o i q) :
    (mipImg img j).px o.1 o.2 ≤ (mipImg img i).px q.1 q.2 := by
  induction h with
  | refl k p => exact le_refl _
  | step j o u i q hmem hrest ih =>
    exact le_trans (reduceImg_le_src (mipImg img j) o.1 o.2 u hmem) ih

/-- C7 counterexample image: 3×4, all texels 1/2 except texel (2,0), which
is 1/100. -/
def imgC7 : Img :=
  { w := 3, h := 4, px := fun x y => if x = 2 ∧ y = 0 then mkRat 1 100 else mkRat 1 2 }

/-- C7 (counterexample): with the Vulkan mip extents (halved, floored, min
1), a 3-wide image loses its last column when the width collapses to 1, so
mip 2 texel (0,0) stores 1/2 although texel (2,0) — inside its 2²×2² block
and valid at mip 0 — holds 1/100: the multi-level bound over the full
dyadic block is false. -/
theorem hizMip_block_bound_fails :
    2 < imgC7.w ∧ 0 < imgC7.h
    ∧ 2 / 2 ^ 2 = (0 : ℕ) ∧ 0 / 2 ^ 2 = (0 : ℕ)
    ∧ (mipImg imgC7 2).w = 1 ∧ (mipImg imgC7 2).h = 1
    ∧ ¬ (mipImg imgC7 2).px 0 0 ≤ (mipImg imgC7 0).px 2 0 := by
  decide

/-- C7 (amended): every texel written by `reduce` equals the minimum of its
up-to-4 clamped source texels (it is bounded by each of them and attained at
one of them), and for any two mip levels `i < j` the stored value at mip `j`
is ≤ the mip-i value at every texel it was actually derived from through the
reduce chain; the full `2^(j-i)`-block bound holds only when no level
clamps. -/
theorem hizReduce_min_monotone :
    (∀ (s : Img) (x y : ℕ),
        (∀ p ∈ srcPositions s x y, (reduceImg s).px x y ≤ s.px p.1 p.2)
        ∧ ∃ p ∈ srcPositions s x y, (reduceImg s).px x y = s.px p.1 p.2)
    ∧ (∀ (img : Img) (j : ℕ) (o : ℕ × ℕ) (i : ℕ) (q : ℕ × ℕ),
        DerivedPos img j o i q →
          (mipImg img j).px o.1 o.2 ≤ (mipImg img i).px q.1 q.2) :=
  ⟨fun s x y => ⟨reduceImg_le_src s x y, reduceImg_attained s x y⟩,
   fun img j o i q h => derivedPos_le img j o i q h⟩

/-- C7 witness: the theorem applied to `imgC7` — texel (0,0) of mip 1 is
bounded by its source texel (0,0) of mip 0, and by the two-step derivation
chain texel (0,0) of mip 1 is bounded by the mip-0 texel (1,0). -/
theorem hizReduce_min_monotone_witness :
    ((0, 0) ∈ srcPositions imgC7 0 0
      ∧ (reduceImg imgC7).px 0 0 ≤ imgC7.px 0 0)
    ∧ (mipImg imgC7 1).px 0 0 ≤ (mipImg imgC7 0).px 1 0 := by
  refine ⟨⟨by decide, ?_⟩, ?_⟩
  · exact (hizReduce_min_monotone.1 imgC7 0 0).1 (0, 0) (by decide)
  · exact hizReduce_min_monotone.2 imgC7 1 (0, 0) 0 (1, 0)
      (DerivedPos.step 0 (0, 0) (1, 0) 0 (1, 0) (by decide) (DerivedPos.refl 0 (1, 0)))

/-- 2-component vector over ℚ. -/
structure Vec2q where
  x : ℚ
  y : ℚ
deriving DecidableEq

/-- 3-component vector over ℚ. -/
structure Vec3q where
  x : ℚ
  y : ℚ
  z : ℚ
deriving DecidableEq

/-- 4-component (clip-space) vector over ℚ. -/
structure Vec4q where
  x : ℚ
  y : ℚ
  z : ℚ
  w : ℚ
deriving DecidableEq

/-- Inputs to one `cull_chunks` invocation (visibility.rs): the push
constants, with the `view_proj * corner.extend(1.0)` product abstracted as a
clip transform of world-space points, and the bound Hi-Z image abstracted as
a sampler with its level-0 size. -/
structure CullIn where
  viewProj : Vec3q → Vec4q
  gridOrigin : Vec3q
  radius : ℤ
  height : ℤ
  hizSample : ℚ → ℚ → ℤ → ℚ
  texW : ℕ
  texH : ℕ

/-- The 8 world-space AABB corners, in source order. -/
def aabbCorners (bmin bmax : Vec3q) : List Vec3q :=
  [⟨bmin.x, bmin.y, bmin.z⟩, ⟨bmax.x, bmin.y, bmin.z⟩,
   ⟨bmin.x, bmax.y, bmin.z⟩, ⟨bmax.x, bmax.y, bmin.z⟩,
   ⟨bmin.x, bmin.y, bmax.z⟩, ⟨bmax.x, bmin.y, bmax.z⟩,
   ⟨bmin.x, bmax.y, bmax.z⟩, ⟨bmax.x, bmax.y, bmax.z⟩]

/-- The clip-space corners of the cell `(gx, gy, gz)` of the grid. -/
def clipCornersOf (inp : CullIn) (gx gy gz : ℤ) : List Vec4q :=
  let dx := gx - inp.radius
  let dy := gy
  let dz := gz - inp.radius
  let base : Vec3q := ⟨inp.gridOrigin.x + (dx : ℚ) * 16, inp.gridOrigin.y + (dy : ℚ) * 16,
    inp.gridOrigin.z + (dz : ℚ) * 16⟩
  let bmax : Vec3q := ⟨base.x + 16, base.y + 16, base.z + 16⟩
  (aabbCorners base bmax).map inp.viewProj

/-- The per-plane inside test of the frustum loop. -/
def planeInside (plane : ℕ) (c : Vec4q) : Bool :=
  match plane with
  | 0 => decide (c.x ≥ -c.w)
  | 1 => decide (c.x ≤ c.w)
  | 2 => decide (c.y ≥ -c.w)
  | 3 => decide (c.y ≤ c.w)
  | 4 => decide (c.z ≤ c.w)
  | 5 => decide (c.z ≥ 0)
  | _ => false

/-- The frustum rejection: some plane has all 8 corners outside. -/
def frustumRejected (clips : List Vec4q) : Bool :=
  (List.range 6).any fun plane => clips.all fun c => ! planeInside plane c

/-- Accumulator of the corner loop: running screen-space min/max, nearest
NDC depth, and whether any corner had `w > 0`. -/
structure ScanSt where
  mn : Vec2q
  mx : Vec2q
  near : ℚ
  anyValid : Bool
deriving DecidableEq

/-- The corner loop of `cull_chunks`: skip corners with `w ≤ 0`, otherwise
fold in the projected UV and depth. -/
def scanCorners (clips : List Vec4q) : ScanSt :=
  clips.foldl
    (fun st c =>
      if c.w ≤ 0 then st
      else
        let u := c.x / c.w * (1 / 2) + 1 / 2
        let v := c.y / c.w * (1 / 2) + 1 / 2
        let d := c.z / c.w
        { mn := ⟨min st.mn.x u, min st.mn.y v⟩
          mx := ⟨max st.mx.x u, max st.mx.y v⟩
          near := min st.near d
          anyValid := true })
    { mn := ⟨1, 1⟩, mx := ⟨0, 0⟩, near := 1, anyValid := false }

/-- glam `clamp(v, 0, 1)`, componentwise `min (max v 0) 1`. -/
def clamp01 (a : ℚ) : ℚ := min (max a 0) 1

/-- The clamped screen-space bounding rectangle of a cell. -/
def screenRect (inp : CullIn) (gx gy gz : ℤ) : Vec2q × Vec2q :=
  let st := scanCorners (clipCornersOf inp gx gy gz)
  (⟨clamp01 st.mn.x, clamp01 st.mn.y⟩, ⟨clamp01 st.mx.x, clamp01 st.mx.y⟩)

/-- In-grid condition: the negation of the early `return` of `cull_chunks`. -/
def inGrid (inp : CullIn) (gx gy gz : ℤ) : Prop :=
  0 ≤ gy ∧ gy < inp.height ∧ 0 ≤ gx ∧ gx < inp.radius * 2 + 1
    ∧ 0 ≤ gz ∧ gz < inp.radius * 2 + 1

instance (inp : CullIn) (gx gy gz : ℤ) : Decidable (inGrid inp gx gy gz) := by
  unfold inGrid; infer_instance

/-- The Hi-Z sampling tail of `cull_chunks`: pick the mip level from the
rectangle's texel footprint, sample the 4 rectangle corners, and keep the
nearest depth only if it is closer than all 4 samples. -/
def hizTest (inp : CullIn) (gx gy gz : ℤ) : ℚ :=
  let r := screenRect inp gx gy gz
  let mip := Int.log 2 (max ((r.2.x - r.1.x) * inp.texW) ((r.2.y - r.1.y) * inp.texH))
  let s1 := inp.hizSample r.1.x r.1.y mip
  let s2 := inp.hizSample r.2.x r.1.y mip
  let s3 := inp.hizSample r.1.x r.2.y mip
  let s4 := inp.hizSample r.2.x r.2.y mip
  let maxZ := min (min s1 s2) (min s3 s4)
  if (scanCorners (clipCornersOf inp gx gy gz)).near > maxZ
  then (scanCorners (clipCornersOf inp gx gy gz)).near else 0

/-- `cull_chunks` (visibility.rs lines 16-123): the value written to the
visibility buffer for cell `(gx, gy, gz)`, or `none` if the invocation is
outside the grid and writes nothing. -/
def cullValue (inp : CullIn) (gx gy gz : ℤ) : Option ℚ :=
  if inGrid inp gx gy gz then
    some
      (if frustumRejected (clipCornersOf inp gx gy gz) then 0
       else if (scanCorners (clipCornersOf inp gx gy gz)).anyValid = false then 0
       else if (screenRect inp gx gy gz).2.x - (screenRect inp gx gy gz).1.x ≤ 0
           ∨ (screenRect inp gx gy gz).2.y - (screenRect inp gx gy gz).1.y ≤ 0 then 0
       else hizTest inp gx gy gz)
  else none

lemma scanCorners_skip_all (clips : List Vec4q) (h : ∀ c ∈ clips, c.w ≤ 0) :
    scanCorners clips = { mn := ⟨1, 1⟩, mx := ⟨0, 0⟩, near := 1, anyValid := false } := by
  unfold scanCorners
  generalize hst : ({ mn := ⟨1, 1⟩, mx := ⟨0, 0⟩, near := 1, anyValid := false } : ScanSt) = st
  clear hst
  induction clips with
  | nil => rfl
  | cons c cs ih =>
    rw [List.foldl_cons, if_pos (h c (List.mem_cons_self c cs))]
    exact ih (fun c' hc' => h c' (List.mem_cons_of_mem c hc'))

/-- C6: in the visibility cull shader, a cell all of whose 8 clip-space
corners have `w ≤ 0` is written as 0 (invisible), and a cell whose clamped
screen-space rectangle has zero or negative width or height is written as 0,
before the `log2`/mip-selection code runs. -/
theorem cullValue_edge_cases (inp : CullIn) (gx gy gz : ℤ)
    (hin : inGrid inp gx gy gz) :
    ((∀ c ∈ clipCornersOf inp gx gy gz, c.w ≤ 0) → cullValue inp gx gy gz = some 0)
    ∧ (((screenRect inp gx gy gz).2.x - (screenRect inp gx gy gz).1.x ≤ 0
        ∨ (screenRect inp gx gy gz).2.y - (screenRect inp gx gy gz).1.y ≤ 0) →
          cullValue inp gx gy gz = some 0) := by
  constructor
  · intro h
    unfold cullValue
    rw [if_pos hin]
    by_cases hf : frustumRejected (clipCornersOf inp gx gy gz)
    · rw [if_pos hf]
    · rw [if_neg hf, scanCorners_skip_all _ h, if_pos rfl]
  · intro h
    unfold cullValue
    rw [if_pos hin]
    by_cases hf : frustumRejected (clipCornersOf inp gx gy gz)
    · rw [if_pos hf]
    · rw [if_neg hf]
      by_cases hv : (scanCorners (clipCornersOf inp gx gy gz)).anyValid = false
      · rw [if_pos hv]
      · rw [if_neg hv, if_pos h]

/-- C6 witness input: a degenerate clip transform sending every corner to
`(0,0,0,0)`. -/
def inpW : CullIn :=
  { viewProj := fun _ => ⟨0, 0, 0, 0⟩
    gridOrigin := ⟨0, 0, 0⟩
    radius := 0
    height := 1
    hizSample := fun _ _ _ => 0
    texW := 1
    texH := 1 }

/-- C6 witness: cell (0,0,0) of `inpW` is in the grid, all its clip corners
have `w ≤ 0`, its clamped rectangle is degenerate (width 0 - 1 < 0), and the
written value is 0 by both halves of the theorem. -/
theorem cullValue_edge_cases_witness :
    inGrid inpW 0 0 0
    ∧ cullValue inpW 0 0 0 = some 0
    ∧ (screenRect inpW 0 0 0).2.x - (screenRect inpW 0 0 0).1.x ≤ 0
    ∧ cullValue inpW 0 0 0 = some 0 := by
  have hin : inGrid inpW 0 0 0 := by decide
  have hall : ∀ c ∈ clipCornersOf inpW 0 0 0, c.w ≤ 0 := by
    intro c hc
    simp only [clipCornersOf, aabbCorners, List.map_cons, List.map_nil, List.mem_cons,
      List.not_mem_nil, or_false, inpW] at hc
    rcases hc with rfl | rfl | rfl | rfl | rfl | rfl | rfl | rfl <;> norm_num
  have hscan : scanCorners (clipCornersOf inpW 0 0 0)
      = { mn := ⟨1, 1⟩, mx := ⟨0, 0⟩, near := 1, anyValid := false } :=
    scanCorners_skip_all _ hall
  have hrect : (screenRect inpW 0 0 0).2.x - (screenRect inpW 0 0 0).1.x ≤ 0 := by
    unfold screenRect
    rw [hscan]
    norm_num [clamp01]
  exact ⟨hin, (cullValue_edge_cases inpW 0 0 0 hin).1 hall, hrect,
    (cullValue_edge_cases inpW 0 0 0 hin).2 (Or.inl hrect)⟩

/-- The ambient execution context a worker thread could observe: its thread
identity and the current time.  `mesh_section` receives it here explicitly so
that independence from it is a provable statement. -/
structure ThreadEnv where
  threadId : ℕ
  timeNs : ℕ

/-- The four growing streams of `MeshBuilder` (mesher/mod.rs), over an
abstract vertex type `V` (`BlockVertex` is plain data). -/
structure BuilderSt (V : Type) where
  blockVerts : List V
  blockIdx : List ℕ
  waterVerts : List V
  waterIdx : List ℕ

/-- `MeshData`: one vertex+index stream tagged with its section. -/
structure MeshDataM (V : Type) where
  vertices : List V
  indices : List ℕ
  sectionPos : SPos

/-- `MeshResult`: the opaque-block and water streams. -/
structure MeshResultM (V : Type) where
  blocks : MeshDataM V
  water : MeshDataM V

/-- Modelled from the spec: the per-block triangulators `mesh_block` and
`mesh_water` and the block classifiers.  The files
`mesher/block.rs`/`mesher/water.rs` (declared by `mod block; mod water;`)
are not under src/; §4.2 of the spec specifies the triangulator as a pure
function of the block, its local position, and the builder, so they are
modelled as such functions, together with azalea's `BlockState::is_air` and
the `Block::Water` test. -/
structure MeshOps (V : Type) where
  meshBlock : BlockId → ℕ × ℕ × ℕ → BuilderSt V → BuilderSt V
  meshWater : BlockId → ℕ × ℕ × ℕ → BuilderSt V → BuilderSt V
  isAir : BlockId → Bool
  isWater : BlockId → Bool

/-- `mesh_section` (mesher/mod.rs lines 487-524): iterate the interior 16³
region in source order (y outer, then x, then z), default missing voxels to
air, skip air, run `mesh_water` for water blocks, then `mesh_block`, and
package the four streams.  The `ThreadEnv` argument stands for the ambient
thread/timing context, which the body never consults. -/
def meshSection {V : Type} (env : ThreadEnv) (ops : MeshOps V)
    (sec : LocalSectionData) : MeshResultM V :=
  let final := (List.range 16).foldl
    (fun st y =>
      (List.range 16).foldl
        (fun st x =>
          (List.range 16).foldl
            (fun st z =>
              let block := (sec.blocks (x + 1) (y + 1) (z + 1)).getD 0
              if ops.isAir block then st
              else
                let st2 := if ops.isWater block
                  then ops.meshWater block (x + 1, y + 1, z + 1) st else st
                ops.meshBlock block (x + 1, y + 1, z + 1) st2)
            st)
        st)
    (⟨[], [], [], []⟩ : BuilderSt V)
  { blocks := ⟨final.blockVerts, final.blockIdx, sec.spos⟩
    water := ⟨final.waterVerts, final.waterIdx, sec.spos⟩ }

/-- C8: `mesh_section` is deterministic — its output is a function of the
local section, the triangulators and the asset classifiers alone, identical
across any two thread/timing contexts. -/
theorem meshSection_deterministic :
    ∀ (V : Type) (env1 env2 : ThreadEnv) (ops : MeshOps V) (sec : LocalSectionData),
      meshSection env1 ops sec = meshSection env2 ops sec := by
  intro V env1 env2 ops sec
  rfl
